import Mathlib

/-!
Shallow embedding of the RAG (retrieval-augmented generation) core of the
fks_web repository, together with theorems about its behaviour.

The embedded code lives in:
  * src/rag/orchestrator.py        (IntelligenceOrchestrator)
  * src/rag/embeddings.py          (EmbeddingsService)
  * src/rag/local_llm.py           (LocalEmbeddings)
  * src/rag/document_processor.py  (DocumentProcessor)
  * src/rag/retrieval.py           (RetrievalService)
  * src/rag/intelligence.py        (FKSIntelligence)
  * src/rag/google_ai.py           (GoogleAIRateLimiter, GoogleAIClient)

Modelling conventions:
  * Python floats are modelled as rationals (ℚ); Python round(x, n)
    (banker's rounding) is modelled exactly on ℚ.
  * Python strings are Lean Strings, but all computation is done on the
    underlying character lists so that proofs can evaluate.
  * External collaborators (the sentence-transformer encoder, the OpenAI
    embeddings API, the pgvector distance operator, the LLM backends, the
    database) are oracle parameters; the embedded functions reproduce the
    repository logic around them.
  * Loops whose progress depends on configuration are defined with an
    explicit fuel parameter equal to the input length; under the sane
    configurations appearing in the theorems the fuel is sufficient.
-/

/-! ## String helpers (Python str semantics on character lists) -/

/-- Python str.strip on a character list: drop whitespace from both ends. -/
def trimL (cs : List Char) : List Char :=
  ((cs.dropWhile Char.isWhitespace).reverse.dropWhile Char.isWhitespace).reverse

/-- Python str.strip on a String. -/
def stripStr (s : String) : String := String.mk (trimL s.data)

/-- Whether a Python string is falsy-or-blank, i.e. `not text or not text.strip()`. -/
def isBlank (s : String) : Bool := (trimL s.data).isEmpty

/-- Python str.lower (ASCII case folding). -/
def lowerStr (s : String) : String := String.mk (s.data.map Char.toLower)

/-- Python str.upper (ASCII case folding). -/
def upperStr (s : String) : String := String.mk (s.data.map Char.toUpper)

/-- Does the first list start with the second one? -/
def startsWithL : List Char → List Char → Bool
  | _, [] => true
  | [], _ :: _ => false
  | a :: as, b :: bs => a == b && startsWithL as bs

/-- Substring containment on character lists (Python `needle in hay`). -/
def containsL : List Char → List Char → Bool
  | [], needle => needle.isEmpty
  | hay@(_ :: rest), needle => startsWithL hay needle || containsL rest needle

/-- Python `sub in s` substring test. -/
def strContains (s sub : String) : Bool := containsL s.data sub.data

/-- The literal string `don't buy` (built without an apostrophe character literal). -/
def dontBuyStr : String :=
  String.mk (['d', 'o', 'n'] ++ [Char.ofNat 39] ++ ['t', ' ', 'b', 'u', 'y'])

/-! ## Exact rounding (Python round, banker's rounding, on ℚ) -/

/-- Python round(q) on a rational: round half to even. -/
def roundHalfEvenZ (q : ℚ) : ℤ :=
  if q - (⌊q⌋ : ℚ) < 1/2 then ⌊q⌋
  else if 1/2 < q - (⌊q⌋ : ℚ) then ⌊q⌋ + 1
  else if 2 ∣ ⌊q⌋ then ⌊q⌋ else ⌊q⌋ + 1

/-- Python round(q, 2) on a rational. -/
def round2 (q : ℚ) : ℚ := (roundHalfEvenZ (q * 100) : ℚ) / 100

/-- Python round(q, 1) on a rational. -/
def round1 (q : ℚ) : ℚ := (roundHalfEvenZ (q * 10) : ℚ) / 10

/-! ## IntelligenceOrchestrator._extract_confidence (orchestrator.py)

The two regular expressions are modelled as explicit leftmost-match
scanners over the lowercased character list. -/

/-- Numeric value of a list of decimal digit characters. -/
def natOfDigits (ds : List Char) : ℕ :=
  ds.foldl (fun a c => a * 10 + (c.toNat - 48)) 0

/-- Attempt to match the regex `(\d+)%\s*confiden` at the head of the list,
returning the digit group. -/
def matchPercentConfAt (cs : List Char) : Option ℕ :=
  let ds := cs.takeWhile Char.isDigit
  if ds.isEmpty then none
  else
    match cs.drop ds.length with
    | [] => none
    | c :: rest =>
      if c = '%' then
        if startsWithL (rest.dropWhile Char.isWhitespace) ("confiden".data) then
          some (natOfDigits ds)
        else none
      else none

/-- Leftmost match of `(\d+)%\s*confiden` (re.search semantics). -/
def searchPercentConf : List Char → Option ℕ
  | [] => none
  | c :: cs =>
    match matchPercentConfAt (c :: cs) with
    | some n => some n
    | none => searchPercentConf cs

/-- Attempt to match the regex `confidence[:\s]+(\d+\.?\d*)` at the head of the
list, returning (integer part, fractional digits value, fractional digit count). -/
def matchConfDecimalAt (cs : List Char) : Option (ℕ × ℕ × ℕ) :=
  if startsWithL cs ("confidence".data) then
    let rest := cs.drop 10
    let seps := rest.takeWhile fun c => c = ':' || c.isWhitespace
    if seps.isEmpty then none
    else
      let rest2 := rest.drop seps.length
      let ds := rest2.takeWhile Char.isDigit
      if ds.isEmpty then none
      else
        match rest2.drop ds.length with
        | '.' :: rest3 =>
          let fs := rest3.takeWhile Char.isDigit
          some (natOfDigits ds, natOfDigits fs, fs.length)
        | _ => some (natOfDigits ds, 0, 0)
  else none

/-- Leftmost match of `confidence[:\s]+(\d+\.?\d*)` (re.search semantics). -/
def searchConfDecimal : List Char → Option (ℕ × ℕ × ℕ)
  | [] => none
  | c :: cs =>
    match matchConfDecimalAt (c :: cs) with
    | some p => some p
    | none => searchConfDecimal cs

/-- Value of a decimal literal from its parsed parts (Python float("i.f")). -/
def qOfDecimal (p : ℕ × ℕ × ℕ) : ℚ :=
  (p.1 : ℚ) + (p.2.1 : ℚ) / ((10 : ℚ) ^ p.2.2)

/-- IntelligenceOrchestrator._extract_confidence: percentage pattern, then
decimal pattern, then keyword fallbacks, then the default 0.7. -/
def extractConfidence (text : String) : ℚ :=
  let lower := lowerStr text
  match searchPercentConf lower.data with
  | some n => (n : ℚ) / 100
  | none =>
    match searchConfDecimal lower.data with
    | some p => qOfDecimal p
    | none =>
      if ["highly confident", "very confident", "strong"].any (fun w => strContains lower w) then
        85 / 100
      else if ["confident", "likely"].any (fun w => strContains lower w) then
        75 / 100
      else if ["uncertain", "unclear", "maybe"].any (fun w => strContains lower w) then
        5 / 10
      else 7 / 10

/-! ## IntelligenceOrchestrator._parse_recommendation (orchestrator.py) -/

/-- Action detection over the lowercased answer. -/
def actionOf (answerLower : String) : String :=
  if strContains answerLower "buy" && !strContains answerLower dontBuyStr then "BUY"
  else if strContains answerLower "sell" then "SELL"
  else "HOLD"

/-- Risk-level detection over the lowercased answer. -/
def riskOf (answerLower : String) : String :=
  if ["high risk", "risky", "aggressive"].any (fun w => strContains answerLower w) then "high"
  else if ["low risk", "safe", "conservative"].any (fun w => strContains answerLower w) then "low"
  else "medium"

/-- Risk-tier sizing table: 0.02 if low, 0.03 if medium, else 0.05. -/
def riskPercentOf (risk : String) : ℚ :=
  if risk = "low" then 2 / 100 else if risk = "medium" then 3 / 100 else 5 / 100

/-- Structured recommendation returned by _parse_recommendation. -/
structure Recommendation where
  symbol : String
  action : String
  position_size_usd : ℚ
  position_size_percent : ℚ
  entry_points : List ℚ
  exit_points : List ℚ
  stop_loss : Option ℚ
  risk_assessment : String
  reasoning : String
  confidence : ℚ
  strategy : String
  timeframe : String

/-- IntelligenceOrchestrator._parse_recommendation. The `sources` argument is
accepted (as in the source) but unused by the parser. -/
def parseRecommendation (answer symbol : String) (account_balance available_cash : ℚ)
    (sources : List String) : Recommendation :=
  let answer_lower := lowerStr answer
  let action := actionOf answer_lower
  let confidence := extractConfidence answer
  let risk := riskOf answer_lower
  let risk_percent := riskPercentOf risk
  let position_size_usd := available_cash * risk_percent
  -- fields: symbol, action, position_size_usd, position_size_percent, entry_points,
  -- exit_points, stop_loss, risk_assessment, reasoning, confidence, strategy, timeframe
  ⟨symbol, action, round2 position_size_usd, round1 (risk_percent * 100), [], [], none,
    risk, answer, confidence, "RAG-optimized", "1h"⟩

/-! ## EmbeddingsService.semantic_search (embeddings.py)

The SQL SELECT issued by semantic_search is executed by the external
PostgreSQL/pgvector store. Its semantics are modelled relationally: the WHERE
clause is a filter over the joined chunk/document rows, ORDER BY the pgvector
cosine-distance operator `<=>` (an oracle parameter `dist`) is a stable sort in
ascending distance, and LIMIT is a take. The surrounding Python try/except maps
any storage failure to the empty result list. -/

/-- A joined row of document_chunks and documents, as selected by the query. -/
structure DBRow where
  chunkId : ℕ
  documentId : ℕ
  content : String
  chunkIndex : ℕ
  chunkMetadata : String
  docType : String
  title : String
  symbol : String
  timeframe : String
  docMetadata : String
  embedding : Option (List ℚ)

/-- The equality filters supported by semantic_search (symbol, doc_type, timeframe). -/
structure SearchFilters where
  symbol : Option String
  docType : Option String
  timeframe : Option String

/-- One element of the list returned by semantic_search. -/
structure SearchResult where
  chunkId : ℕ
  documentId : ℕ
  content : String
  chunkIndex : ℕ
  chunkMetadata : String
  docType : String
  title : String
  symbol : String
  timeframe : String
  docMetadata : String
  similarity : ℚ

/-- Cosine distance `row.embedding <=> query_embedding` via the oracle `dist`. -/
def rowDistance (dist : List ℚ → List ℚ → ℚ) (queryEmbedding : List ℚ) (row : DBRow) : ℚ :=
  dist (row.embedding.getD []) queryEmbedding

/-- The WHERE clause: embedding IS NOT NULL, the optional equality filters, and
`1 - (embedding <=> query) >= threshold`. -/
def rowPasses (dist : List ℚ → List ℚ → ℚ) (queryEmbedding : List ℚ) (threshold : ℚ)
    (filters : SearchFilters) (row : DBRow) : Bool :=
  row.embedding.isSome &&
  (match filters.symbol with | some s => row.symbol == s | none => true) &&
  (match filters.docType with | some t => row.docType == t | none => true) &&
  (match filters.timeframe with | some t => row.timeframe == t | none => true) &&
  decide (threshold ≤ 1 - rowDistance dist queryEmbedding row)

/-- Insert into a sorted list, keeping earlier elements first on ties
(stable insertion). -/
def insertByLe (le : α → α → Bool) (a : α) : List α → List α
  | [] => [a]
  | b :: l => if le a b then a :: b :: l else b :: insertByLe le a l

/-- Stable insertion sort with respect to a boolean comparison. -/
def sortByLe (le : α → α → Bool) : List α → List α
  | [] => []
  | a :: l => insertByLe le a (sortByLe le l)

/-- Build the returned record for a row, with similarity `1 - distance`. -/
def toSearchResult (dist : List ℚ → List ℚ → ℚ) (queryEmbedding : List ℚ) (row : DBRow) :
    SearchResult :=
  ⟨row.chunkId, row.documentId, row.content, row.chunkIndex, row.chunkMetadata, row.docType,
    row.title, row.symbol, row.timeframe, row.docMetadata,
    1 - rowDistance dist queryEmbedding row⟩

/-- EmbeddingsService.semantic_search: on storage failure return [], otherwise
filter by the WHERE clause, order by ascending cosine distance, apply LIMIT and
build the result records. -/
def semanticSearch (dist : List ℚ → List ℚ → ℚ) (store : Except String (List DBRow))
    (queryEmbedding : List ℚ) (limit : ℕ) (threshold : ℚ) (filters : SearchFilters) :
    List SearchResult :=
  match store with
  | .error _ => []
  | .ok rows =>
    let passed := rows.filter (rowPasses dist queryEmbedding threshold filters)
    let sorted := sortByLe
      (fun a b => decide (rowDistance dist queryEmbedding a ≤ rowDistance dist queryEmbedding b))
      passed
    (sorted.take limit).map (toSearchResult dist queryEmbedding)

/-! ## EmbeddingsService.generate_embedding / generate_embeddings_batch
(embeddings.py) and LocalEmbeddings.generate_embeddings_batch (local_llm.py)

The sentence-transformer encoder and the OpenAI embeddings endpoint are
oracles: `embedOne` gives the backend's embedding of one (sanitised) text and
`apiOk` tells whether the remote call for a given batch succeeds. -/

/-- The all-zero vector of the configured dimension. -/
def zeroVec (d : ℕ) : List ℚ := List.replicate d (0 : ℚ)

/-- The per-text blank substitution `text if text and text.strip() else " "`. -/
def sanitize (t : String) : String := if isBlank t then " " else t

/-- EmbeddingsService.generate_embedding: blank input maps to the zero vector,
otherwise the backend embedding of the text. -/
def generateEmbedding (d : ℕ) (embedOne : String → List ℚ) (text : String) : List ℚ :=
  if isBlank text then zeroVec d else embedOne text

/-- Batches of size `bs` of a list (the loop `range(0, len(texts), batch_size)`),
with fuel; fuel `ts.length` suffices whenever `1 ≤ bs`. -/
def chunkBatchesAux (bs : ℕ) : ℕ → List α → List (List α)
  | 0, _ => []
  | _, [] => []
  | fuel + 1, ts@(_ :: _) => ts.take bs :: chunkBatchesAux bs fuel (ts.drop bs)

/-- Batches of size `bs` of a list. -/
def chunkBatches (bs : ℕ) (ts : List α) : List (List α) := chunkBatchesAux bs ts.length ts

/-- The loop body of EmbeddingsService._generate_openai_batch: per batch,
sanitise the entries, call the API, and on failure substitute zero vectors for
the whole batch; always continue with the remaining batches. -/
def genOpenaiBatchAux (d : ℕ) (embedOne : String → List ℚ) (apiOk : List String → Bool)
    (bs : ℕ) : ℕ → List String → List (List ℚ)
  | 0, _ => []
  | _, [] => []
  | fuel + 1, ts@(_ :: _) =>
    let batch := ts.take bs
    let batch2 := batch.map sanitize
    (if apiOk batch2 then batch2.map embedOne
     else List.replicate batch2.length (zeroVec d)) ++
      genOpenaiBatchAux d embedOne apiOk bs fuel (ts.drop bs)

/-- EmbeddingsService._generate_openai_batch. -/
def generateOpenaiBatch (d : ℕ) (embedOne : String → List ℚ) (apiOk : List String → Bool)
    (bs : ℕ) (texts : List String) : List (List ℚ) :=
  genOpenaiBatchAux d embedOne apiOk bs texts.length texts

/-- LocalEmbeddings.generate_embeddings_batch: sanitise blanks to a single
space and encode every text; the sentence-transformer batch encode is modelled
as the per-text oracle `embedOne` applied in order. -/
def localGenerateEmbeddingsBatch (embedOne : String → List ℚ) (texts : List String) :
    List (List ℚ) :=
  (texts.map sanitize).map embedOne

/-- EmbeddingsService.generate_embeddings_batch: the local path sanitises and
delegates to LocalEmbeddings (the caller batch size is replaced by 32 and
absorbed by the encoder oracle); the remote path runs the OpenAI batch loop. -/
def generateEmbeddingsBatchSvc (useLocal : Bool) (d : ℕ) (embedOne : String → List ℚ)
    (apiOk : List String → Bool) (bs : ℕ) (texts : List String) : List (List ℚ) :=
  if useLocal then localGenerateEmbeddingsBatch embedOne (texts.map sanitize)
  else generateOpenaiBatch d embedOne apiOk bs texts

/-! ## DocumentProcessor (document_processor.py)

The tiktoken encoder is an oracle (a Tokenizer record); the sliding-window
loop of chunk_text is defined on the token list it produces. The while loop
advances by `chunk_size - chunk_overlap` tokens per step, so it terminates only
when the overlap is strictly smaller than the window; the Lean definition takes
fuel equal to the token count, which is sufficient exactly in that case. -/

/-- Configuration state set up by DocumentProcessor.__init__. -/
structure DocumentProcessorState where
  chunk_size : ℕ
  chunk_overlap : ℕ
deriving DecidableEq

/-- DocumentProcessor.__init__: stores chunk_size and chunk_overlap and loads
the tiktoken encoding (an external lookup, not modelled). The source performs
no validation of the chunk_size/chunk_overlap relationship, so construction
never fails. -/
def documentProcessorInit (chunk_size chunk_overlap : ℕ) :
    Except String DocumentProcessorState :=
  Except.ok ⟨chunk_size, chunk_overlap⟩

/-- An external tokenizer (tiktoken encoding_for_model result). -/
structure Tokenizer where
  encode : String → List ℕ
  decode : List ℕ → String

/-- Replace a whitespace character by a plain space. -/
def wsToSpace (c : Char) : Char := if c.isWhitespace then ' ' else c

/-- Collapse runs of spaces to a single space. -/
def squeezeSpaces : List Char → List Char
  | [] => []
  | [c] => [c]
  | a :: b :: t =>
    if a = ' ' && b = ' ' then squeezeSpaces (b :: t) else a :: squeezeSpaces (b :: t)

/-- Collapse every maximal whitespace run to a single space
(re.sub of one-or-more whitespace with a space). -/
def collapseWs (cs : List Char) : List Char := squeezeSpaces (cs.map wsToSpace)

/-- Characters kept by the second cleaning regex: word characters, whitespace
and the punctuation set `.,!?-:;()[]\x7b\x7d/` plus the two quote characters. -/
def allowedChar (c : Char) : Bool :=
  c.isAlphanum || c = '_' || c.isWhitespace ||
  [' ', '.', ',', '!', '?', '-', ':', ';', '(', ')', '[', ']',
    Char.ofNat 123, Char.ofNat 125, '/', Char.ofNat 39, Char.ofNat 34].contains c

/-- DocumentProcessor._clean_text: collapse whitespace, drop disallowed
characters, strip. -/
def cleanText (s : String) : String :=
  String.mk (trimL ((collapseWs s.data).filter allowedChar))

/-- One step list of token windows of the sliding-window loop, with fuel.
Each iteration takes `take size` of the remaining tokens and, unless the
window already reaches the end, recurses on the suffix starting
`size - overlap` tokens further. -/
def tokenWindowsAux (size overlap : ℕ) : ℕ → List α → List (List α)
  | 0, _ => []
  | _, [] => []
  | fuel + 1, ts@(_ :: _) =>
    ts.take size ::
      (if ts.length ≤ size then []
       else tokenWindowsAux size overlap fuel (ts.drop (size - overlap)))

/-- The token windows visited by DocumentProcessor.chunk_text. -/
def tokenWindows (size overlap : ℕ) (ts : List α) : List (List α) :=
  tokenWindowsAux size overlap ts.length ts

/-- A chunk record produced by DocumentProcessor.chunk_text. -/
structure Chunk where
  content : String
  chunk_index : ℕ
  token_count : ℕ
  metadata : String
deriving DecidableEq

/-- DocumentProcessor.chunk_text: blank text gives no chunks; otherwise clean,
tokenize, slide the window, and decode each window back to (stripped) text. -/
def chunkText (tk : Tokenizer) (st : DocumentProcessorState) (text : String)
    (metadata : Option String) : List Chunk :=
  if isBlank text then []
  else
    let tokens := tk.encode (cleanText text)
    (tokenWindows st.chunk_size st.chunk_overlap tokens).mapIdx
      (fun i w => ⟨stripStr (tk.decode w), i, w.length, metadata.getD ""⟩)

/-- The token windows underlying the chunks of chunk_text. -/
def chunkWindows (tk : Tokenizer) (st : DocumentProcessorState) (text : String) :
    List (List ℕ) :=
  if isBlank text then []
  else tokenWindows st.chunk_size st.chunk_overlap (tk.encode (cleanText text))

/-- Concatenation of token windows with the overlap of each consecutive pair
removed: the first window whole, every later window without its first
`overlap` tokens. -/
def reconstructTokens (overlap : ℕ) : List (List α) → List α
  | [] => []
  | w :: ws => w ++ (ws.map (fun v => v.drop overlap)).flatten

/-! ## RetrievalService (retrieval.py) -/

/-- RetrievalService.retrieve_context: embed the query and run semantic_search
with the fixed 0.6 similarity threshold. -/
def retrieveContext (dist : List ℚ → List ℚ → ℚ) (embedOne : String → List ℚ) (d : ℕ)
    (store : Except String (List DBRow)) (query : String) (top_k : ℕ)
    (filters : SearchFilters) : List SearchResult :=
  semanticSearch dist store (generateEmbedding d embedOne query) top_k (6/10) filters

/-- The hybrid combined score: 60% similarity normalised by the maximum
similarity in the result set, plus 40% of the constant recency score 0.5. -/
def hybridScore (maxSim : ℚ) (r : SearchResult) : ℚ :=
  (6/10) * (if 0 < maxSim then r.similarity / maxSim else 0) + (4/10) * (1/2)

/-- Maximum similarity of a nonempty result list (`max(...)` in the source). -/
def maxSimOf : List SearchResult → ℚ
  | [] => 0
  | r :: rs => rs.foldl (fun m x => max m x.similarity) r.similarity

/-- RetrievalService.rerank_results. The search results carry no created_at
key, so the recency sort key is the constant default empty string; Python
sorted(reverse=True) is a stable descending sort. -/
def rerankResults (results : List SearchResult) (method : String) : List SearchResult :=
  if method = "similarity" then results
  else if method = "recency" then
    sortByLe (fun _ _ => true) results
  else if method = "hybrid" then
    if results.isEmpty then results
    else
      let maxSim := maxSimOf results
      sortByLe (fun a b => decide (hybridScore maxSim b ≤ hybridScore maxSim a)) results
  else results

/-- One formatted context part plus the running loop of
RetrievalService.format_context_for_prompt, with the truncation marker once the
character budget is exceeded. `fmt` renders the similarity with two decimals
(Python f-string float formatting, an external detail). -/
def formatContextAux (fmt : ℚ → String) (maxChars : ℕ) :
    ℕ → ℕ → List SearchResult → List String
  | _, _, [] => []
  | i, total, r :: rs =>
    let part := "\n[Context " ++ toString i ++ " - " ++ upperStr r.docType ++ " - " ++
      r.symbol ++ " - Relevance: " ++ fmt r.similarity ++ "]\n" ++ r.content ++ "\n"
    if maxChars < total + part.length then
      ["\n[Additional context truncated due to length...]"]
    else part :: formatContextAux fmt maxChars (i + 1) (total + part.length) rs

/-- RetrievalService.format_context_for_prompt. -/
def formatContext (fmt : ℚ → String) (results : List SearchResult) (max_tokens : ℕ) : String :=
  if results.isEmpty then "No relevant context found."
  else String.intercalate "\n" (formatContextAux fmt (max_tokens * 4) 1 0 results)

/-! ## FKSIntelligence.query and response generation (intelligence.py) -/

/-- The fixed system prompt of FKSIntelligence._generate_response. -/
def systemPromptText : String :=
  "You are FKS Intelligence, an expert AI trading assistant with deep knowledge of " ++
  "crypto trading strategies, technical analysis, and risk management.\n\n" ++
  "Your role is to provide actionable trading insights based on historical data, " ++
  "past signals, backtest results, and trading lessons learned.\n\n" ++
  "Guidelines:\n- Base your answers on the provided context\n" ++
  "- Be specific and reference actual data when available\n" ++
  "- Acknowledge uncertainty when context is limited\n" ++
  "- Provide actionable recommendations\n" ++
  "- Consider risk management in all suggestions\n" ++
  "- Explain your reasoning clearly\n\n" ++
  "Format your responses with:\n1. Direct answer to the question\n" ++
  "2. Supporting evidence from historical data\n" ++
  "3. Actionable recommendations\n4. Risk considerations"

/-- The user prompt of FKSIntelligence._generate_response, embedding the
formatted context and the question. -/
def userPrompt (context question : String) : String :=
  "Context from FKS Knowledge Base:\n" ++ context ++ "\n\nQuestion: " ++ question ++
  "\n\nPlease provide a comprehensive answer based on the context above."

/-- FKSIntelligence._generate_response via the local backend: build the two
prompts, call the LLM oracle and convert any generation exception into an
error-text answer (never raised). -/
def generateResponse (llm : String → String → Except String String)
    (question context : String) : String :=
  match llm (userPrompt context question) systemPromptText with
  | .ok r => r
  | .error e => "Error generating response: " ++ e

/-- The response dictionary returned by FKSIntelligence.query. -/
structure QueryResponse where
  answer : String
  sources : List SearchResult
  context_used : ℕ
  response_time_ms : ℕ
  timestamp : String

/-- FKSIntelligence.query: retrieve context (once, or once per requested doc
type), re-rank with the hybrid method, truncate to top_k, format the context,
generate the answer and assemble the response dictionary. The elapsed time and
timestamp are oracle inputs; the query-history logging is a side effect with no
influence on the returned value. Storage failures are already mapped to empty
results inside semantic_search, and generation failures to error text inside
generateResponse, so the body never raises in this model. -/
def queryFn (dist : List ℚ → List ℚ → ℚ) (embedOne : String → List ℚ) (d : ℕ)
    (llm : String → String → Except String String) (fmt : ℚ → String)
    (store : Except String (List DBRow)) (question : String) (symbol : Option String)
    (docTypes : Option (List String)) (top_k : ℕ) (responseTime : ℕ) (timestamp : String) :
    QueryResponse :=
  let allResults :=
    match docTypes with
    | some l => l.flatMap fun dt =>
        retrieveContext dist embedOne d store question top_k ⟨symbol, some dt, none⟩
    | none => retrieveContext dist embedOne d store question top_k ⟨symbol, none, none⟩
  let ranked := (rerankResults allResults "hybrid").take top_k
  let context := formatContext fmt ranked 4000
  let answer := generateResponse llm question context
  ⟨answer, ranked, ranked.length, responseTime, timestamp⟩

/-! ## GoogleAIRateLimiter and GoogleAIClient.generate (google_ai.py)

The Django cache is a total map from keys to counters (absent keys read as the
default 0). The strftime-rendered key strings "%Y%m%d%H%M" / "%Y%m%d" are
zero-padded and therefore injective renderings of the bucket fields, so keys
are modelled by the bucket data itself. Entry timeouts (120 s / 25 h) only
garbage-collect buckets that are no longer read and do not affect the values
read at the current time. -/

/-- The wall-clock fields the two strftime keys depend on. -/
structure CacheTime where
  year : ℕ
  month : ℕ
  day : ℕ
  hour : ℕ
  minute : ℕ
deriving DecidableEq

/-- A rate-limiter cache key: a per-minute bucket or a per-day bucket. -/
inductive RLKey where
  | minuteOf (year month day hour minute : ℕ)
  | dayOf (year month day : ℕ)
deriving DecidableEq

/-- GoogleAIRateLimiter._get_minute_key. -/
def minuteKeyOf (t : CacheTime) : RLKey := .minuteOf t.year t.month t.day t.hour t.minute

/-- GoogleAIRateLimiter._get_day_key. -/
def dayKeyOf (t : CacheTime) : RLKey := .dayOf t.year t.month t.day

/-- RATE_LIMIT_RPM: requests per minute on the free tier. -/
def rateLimitRPM : ℕ := 15

/-- RATE_LIMIT_RPD: requests per day on the free tier. -/
def rateLimitRPD : ℕ := 1500

/-- GoogleAIRateLimiter.can_make_request: minute cap first, then day cap. -/
def canMakeRequest (cache : RLKey → ℕ) (now : CacheTime) : Bool × Option String :=
  if rateLimitRPM ≤ cache (minuteKeyOf now) then
    (false, some "Rate limit exceeded: 15 requests per minute")
  else if rateLimitRPD ≤ cache (dayKeyOf now) then
    (false, some "Daily limit exceeded: 1500 requests per day")
  else (true, none)

/-- GoogleAIRateLimiter.record_request: increment both the current minute
bucket and the current day bucket (the two keys are always distinct). -/
def recordRequest (cache : RLKey → ℕ) (now : CacheTime) : RLKey → ℕ :=
  fun k =>
    if k = minuteKeyOf now then cache k + 1
    else if k = dayKeyOf now then cache k + 1
    else cache k

/-- GoogleAIClient.generate: consult the rate limiter before anything else and
raise RateLimitError without touching the network when a cap is hit; otherwise
call the API oracle, record the request on success (failed requests are not
recorded) and wrap API failures. Returns (result, whether the API was called,
the cache afterwards). -/
def googleGenerate (cache : RLKey → ℕ) (now : CacheTime) (api : Except String String) :
    Except String String × Bool × (RLKey → ℕ) :=
  let chk := canMakeRequest cache now
  if chk.1 then
    match api with
    | .ok t => (.ok t, true, recordRequest cache now)
    | .error e => (.error ("Google AI API error: " ++ e), true, cache)
  else (.error (chk.2.getD ""), false, cache)

/-! ## FKSIntelligence.ingest_document (intelligence.py)

The SQLAlchemy session is modelled by counts of pending (added/flushed but
uncommitted) and committed rows plus a closed flag. The stages that can raise
inside the try block are oracle parameters: document creation + flush,
chunking (the tiktoken call inside chunk_text can fail), and batch embedding
generation. store_chunk_embedding catches its own storage errors, committing
on success and rolling back (and returning false) on failure. -/

/-- The observable state of a SQLAlchemy session. -/
structure DBSession where
  pending : ℕ
  committed : ℕ
  closed : Bool
deriving DecidableEq

/-- A freshly opened session (Session()). -/
def freshSession : DBSession := ⟨0, 0, false⟩

/-- session.add: one more row in the transaction, not yet committed. -/
def addRow (s : DBSession) : DBSession := ⟨s.pending + 1, s.committed, s.closed⟩

/-- session.commit: all pending rows become durable. -/
def commitS (s : DBSession) : DBSession := ⟨0, s.committed + s.pending, s.closed⟩

/-- session.rollback: all pending rows are discarded. -/
def rollbackS (s : DBSession) : DBSession := ⟨0, s.committed, s.closed⟩

/-- session.close. -/
def closeS (s : DBSession) : DBSession := ⟨s.pending, s.committed, true⟩

/-- EmbeddingsService.store_chunk_embedding with a caller-supplied session:
commit and report true on success, roll back and report false on a storage
error (nothing is raised). -/
def storeChunkEmbedding (ok : Bool) (s : DBSession) : Bool × DBSession :=
  if ok then (true, commitS s) else (false, rollbackS s)

/-- FKSIntelligence.ingest_document. Returns the raised-or-returned outcome
together with the final state of the session that was used. A session given by
the caller is used as is and never closed; otherwise a fresh session is opened
and closed on every exit path. On any exception the session is rolled back and
the exception re-raised. -/
def ingestDocument (docFlushE : Except String Unit)
    (chunksE : Except String (List Chunk)) (embedsE : Except String (List (List ℚ)))
    (storeOk : ℕ → Bool) (docId : ℕ) (sessionIn : Option DBSession) :
    Except String ℕ × DBSession :=
  let internal := sessionIn.isNone
  let s0 := sessionIn.getD freshSession
  let finish := fun (r : Except String ℕ) (s : DBSession) =>
    (r, if internal then closeS s else s)
  let s1 := addRow s0
  match docFlushE with
  | .error e => finish (.error e) (rollbackS s1)
  | .ok _ =>
    match chunksE with
    | .error e => finish (.error e) (rollbackS s1)
    | .ok chunks =>
      let s2 := chunks.foldl (fun acc _ => addRow acc) s1
      match embedsE with
      | .error e => finish (.error e) (rollbackS s2)
      | .ok embeds =>
        let n := min chunks.length embeds.length
        let s3 := (List.range n).foldl (fun acc i => (storeChunkEmbedding (storeOk i) acc).2) s2
        finish (.ok docId) (commitS s3)

/-- A concrete tokenizer (one token per character, by code point) used to
exercise the chunker theorems on closed inputs. -/
def charTokenizer : Tokenizer :=
  ⟨fun s => s.data.map Char.toNat, fun l => String.mk (l.map Char.ofNat)⟩

/-! ## Lemmas about the stable insertion sort -/

theorem mem_insertByLe {α : Type} (le : α → α → Bool) (a x : α) (l : List α) :
    x ∈ insertByLe le a l ↔ x = a ∨ x ∈ l := by
  induction l with
  | nil => simp [insertByLe]
  | cons b t ih =>
    by_cases h : le a b = true
    · simp [insertByLe, h]
    · have hred : insertByLe le a (b :: t) = b :: insertByLe le a t := by
        simp [insertByLe, h]
      rw [hred]
      simp only [List.mem_cons, ih]
      tauto

theorem mem_sortByLe {α : Type} (le : α → α → Bool) (x : α) (l : List α) :
    x ∈ sortByLe le l ↔ x ∈ l := by
  induction l with
  | nil => simp [sortByLe]
  | cons b t ih => simp [sortByLe, mem_insertByLe, ih]

theorem pairwise_insertByLe {α : Type} (le : α → α → Bool)
    (htot : ∀ a b, le a b = false → le b a = true)
    (htrans : ∀ a b c, le a b = true → le b c = true → le a c = true)
    (a : α) (l : List α) (h : l.Pairwise fun x y => le x y = true) :
    (insertByLe le a l).Pairwise fun x y => le x y = true := by
  induction l with
  | nil => simp [insertByLe]
  | cons b t ih =>
    rcases List.pairwise_cons.mp h with ⟨hb, ht⟩
    by_cases hab : le a b = true
    · simp only [insertByLe, hab, if_true]
      refine List.Pairwise.cons ?_ h
      intro x hx
      rcases List.mem_cons.mp hx with rfl | hxt
      · exact hab
      · exact htrans a b x hab (hb x hxt)
    · have hba : le b a = true := htot a b (by simpa using hab)
      simp only [insertByLe, hab, if_false]
      refine List.Pairwise.cons ?_ (ih ht)
      intro x hx
      rcases (mem_insertByLe le a x t).mp hx with rfl | hxt
      · exact hba
      · exact hb x hxt

theorem pairwise_sortByLe {α : Type} (le : α → α → Bool)
    (htot : ∀ a b, le a b = false → le b a = true)
    (htrans : ∀ a b c, le a b = true → le b c = true → le a c = true)
    (l : List α) :
    (sortByLe le l).Pairwise fun x y => le x y = true := by
  induction l with
  | nil => simp [sortByLe]
  | cons b t ih => exact pairwise_insertByLe le htot htrans b _ ih

/-- C2: every item returned by semantic_search has similarity at least the
requested floor, and the returned sequence is sorted in descending order of
similarity. The SQL ORDER BY on ascending cosine distance is modelled as a
stable sort, so ties keep their insertion order. -/
theorem c2_search_floor_and_descending
    (dist : List ℚ → List ℚ → ℚ) (store : Except String (List DBRow))
    (queryEmbedding : List ℚ) (limit : ℕ) (threshold : ℚ) (filters : SearchFilters) :
    (∀ r ∈ semanticSearch dist store queryEmbedding limit threshold filters,
      threshold ≤ r.similarity) ∧
    (semanticSearch dist store queryEmbedding limit threshold filters).Pairwise
      (fun a b => b.similarity ≤ a.similarity) := by
  cases store with
  | error e => simp [semanticSearch]
  | ok rows =>
    constructor
    · intro r hr
      simp only [semanticSearch] at hr
      rcases List.mem_map.mp hr with ⟨row, hrow, rfl⟩
      have hmem : row ∈ rows.filter (rowPasses dist queryEmbedding threshold filters) :=
        (mem_sortByLe _ row _).mp (List.take_subset _ _ hrow)
      have hp := List.of_mem_filter hmem
      simp only [rowPasses, Bool.and_eq_true, decide_eq_true_eq] at hp
      exact hp.2
    · simp only [semanticSearch]
      rw [List.pairwise_map]
      have hsorted := pairwise_sortByLe
        (fun a b => decide (rowDistance dist queryEmbedding a ≤ rowDistance dist queryEmbedding b))
        (fun a b hab => by
          simp only [decide_eq_false_iff_not, not_le] at hab
          simpa using le_of_lt hab)
        (fun a b c hab hbc => by
          simp only [decide_eq_true_eq] at hab hbc ⊢
          exact le_trans hab hbc)
        (rows.filter (rowPasses dist queryEmbedding threshold filters))
      have htake := hsorted.sublist (List.take_sublist limit _)
      refine htake.imp ?_
      intro a b hab
      simp only [decide_eq_true_eq] at hab
      simp only [toSearchResult]
      exact sub_le_sub_left hab 1

/-! ## Lemmas about the embedding batch loop -/

theorem sanitize_idem (t : String) : sanitize (sanitize t) = sanitize t := by
  by_cases h : isBlank t = true
  · simp [sanitize, h]
  · simp [sanitize, h]

theorem flatten_chunkBatchesAux {α : Type} (bs : ℕ) (hbs : 1 ≤ bs) :
    ∀ (fuel : ℕ) (ts : List α), ts.length ≤ fuel →
      (chunkBatchesAux bs fuel ts).flatten = ts := by
  intro fuel
  induction fuel with
  | zero =>
    intro ts h
    have : ts = [] := List.eq_nil_of_length_eq_zero (Nat.le_zero.mp h)
    subst this
    simp [chunkBatchesAux]
  | succ n ih =>
    intro ts h
    cases ts with
    | nil => simp [chunkBatchesAux]
    | cons a t =>
      simp only [chunkBatchesAux, List.flatten_cons]
      rw [ih]
      · exact List.take_append_drop bs (a :: t)
      · have hlen : ((a :: t).drop bs).length = (a :: t).length - bs := List.length_drop bs _
        simp only [List.length_cons] at h hlen
        omega

theorem genOpenaiBatchAux_eq (d : ℕ) (e : String → List ℚ) (ok : List String → Bool)
    (bs : ℕ) : ∀ (fuel : ℕ) (ts : List String),
    genOpenaiBatchAux d e ok bs fuel ts =
      (chunkBatchesAux bs fuel ts).flatMap fun b =>
        if ok (b.map sanitize) then (b.map sanitize).map e
        else List.replicate (b.map sanitize).length (zeroVec d) := by
  intro fuel
  induction fuel with
  | zero => intro ts; simp [genOpenaiBatchAux, chunkBatchesAux]
  | succ n ih =>
    intro ts
    cases ts with
    | nil => simp [genOpenaiBatchAux, chunkBatchesAux]
    | cons a t => simp only [genOpenaiBatchAux, chunkBatchesAux, List.flatMap_cons, ih]

theorem length_flatMap_of_length_eq {α β : Type} (f : List α → List β)
    (hf : ∀ b, (f b).length = b.length) (l : List (List α)) :
    (l.flatMap f).length = l.flatten.length := by
  induction l with
  | nil => simp
  | cons a t ih => simp [hf, ih]

theorem flatMap_map_eq_flatten_map {α β : Type} (g : α → β) (l : List (List α)) :
    (l.flatMap fun b => b.map g) = l.flatten.map g := by
  induction l with
  | nil => simp
  | cons a t ih => simp [ih]

/-- C3: the batch embedding API (service-level, both the local and the remote
path) returns exactly one vector per input text, in input order, each of the
configured dimension; order preservation is witnessed by the output being the
per-text embedding of the sanitised input at every position whenever no remote
batch fails (and the local path is unconditionally that map). -/
theorem c3_batch_order_count_dimension (useLocal : Bool) (d : ℕ)
    (e : String → List ℚ) (ok : List String → Bool) (bs : ℕ) (texts : List String)
    (hbs : 1 ≤ bs) (hdim : ∀ s, (e s).length = d) :
    (generateEmbeddingsBatchSvc useLocal d e ok bs texts).length = texts.length ∧
    (∀ v ∈ generateEmbeddingsBatchSvc useLocal d e ok bs texts, v.length = d) ∧
    ((∀ b, ok b = true) →
      generateEmbeddingsBatchSvc useLocal d e ok bs texts =
        texts.map fun t => e (sanitize t)) := by
  cases useLocal with
  | true =>
    refine ⟨?_, ?_, ?_⟩
    · simp [generateEmbeddingsBatchSvc, localGenerateEmbeddingsBatch]
    · intro v hv
      simp only [generateEmbeddingsBatchSvc, localGenerateEmbeddingsBatch, if_true,
        List.map_map, List.mem_map] at hv
      rcases hv with ⟨t, _, rfl⟩
      exact hdim _
    · intro _
      simp [generateEmbeddingsBatchSvc, localGenerateEmbeddingsBatch, List.map_map,
        Function.comp, sanitize_idem]
  | false =>
    have hkey : generateEmbeddingsBatchSvc false d e ok bs texts =
        (chunkBatchesAux bs texts.length texts).flatMap fun b =>
          if ok (b.map sanitize) then (b.map sanitize).map e
          else List.replicate (b.map sanitize).length (zeroVec d) := by
      simp only [generateEmbeddingsBatchSvc, Bool.false_eq_true, if_false,
        generateOpenaiBatch, genOpenaiBatchAux_eq]
    have hflat : (chunkBatchesAux bs texts.length texts).flatten = texts :=
      flatten_chunkBatchesAux bs hbs texts.length texts le_rfl
    refine ⟨?_, ?_, ?_⟩
    · rw [hkey, length_flatMap_of_length_eq, hflat]
      intro b
      by_cases h : ok (b.map sanitize) = true <;> simp [h]
    · intro v hv
      rw [hkey] at hv
      rcases List.mem_flatMap.mp hv with ⟨b, _, hvb⟩
      by_cases h : ok (b.map sanitize) = true
      · simp only [h, if_true, List.mem_map] at hvb
        rcases hvb with ⟨t, _, rfl⟩
        exact hdim _
      · simp only [h, if_false] at hvb
        have := List.eq_of_mem_replicate hvb
        subst this
        simp [zeroVec]
    · intro hall
      rw [hkey]
      have : ∀ b : List String,
          (if ok (b.map sanitize) then (b.map sanitize).map e
           else List.replicate (b.map sanitize).length (zeroVec d)) =
            b.map fun t => e (sanitize t) := by
        intro b
        simp [hall (b.map sanitize), List.map_map, Function.comp]
      simp only [this]
      rw [flatMap_map_eq_flatten_map, hflat]

/-- Witness for C3 at a concrete input: remote path, dimension 1, batch size 1,
one nonblank and one blank text, every batch succeeding. -/
theorem c3_batch_order_count_dimension_witness :
    (generateEmbeddingsBatchSvc false 1 (fun _ => [(0 : ℚ)]) (fun _ => true) 1
      ["a", ""]).length = 2 := by
  have h := (c3_batch_order_count_dimension false 1 (fun _ => [(0 : ℚ)]) (fun _ => true) 1
    ["a", ""] (by decide) (fun _ => rfl)).1
  simpa using h

/-- C4 (amended): a blank single text embeds to the zero vector; in the batch
APIs a blank entry is replaced by a single space and embedded like any other
text; a failed remote batch contributes zero vectors for exactly its own
entries while all remaining batches are still processed, so the output always
has one vector per input. -/
theorem c4_blank_single_zero_failed_batch_zeros (d : ℕ) (e : String → List ℚ)
    (ok : List String → Bool) (bs : ℕ) (texts : List String) (t : String)
    (hbs : 1 ≤ bs) (hblank : isBlank t = true) :
    generateEmbedding d e t = zeroVec d ∧
    (generateOpenaiBatch d e ok bs texts).length = texts.length ∧
    generateOpenaiBatch d e ok bs texts =
      (chunkBatches bs texts).flatMap fun b =>
        if ok (b.map sanitize) then (b.map sanitize).map e
        else List.replicate (b.map sanitize).length (zeroVec d) := by
  refine ⟨by simp [generateEmbedding, hblank], ?_, ?_⟩
  · rw [generateOpenaiBatch, genOpenaiBatchAux_eq, length_flatMap_of_length_eq,
      flatten_chunkBatchesAux bs hbs texts.length texts le_rfl]
    intro b
    by_cases h : ok (b.map sanitize) = true <;> simp [h]
  · rw [generateOpenaiBatch, genOpenaiBatchAux_eq]
    rfl

/-- Witness for C4 (amended) at a concrete input: the one remote batch fails. -/
theorem c4_blank_single_zero_failed_batch_zeros_witness :
    generateEmbedding 1 (fun _ => [(5 : ℚ)]) "" = zeroVec 1 ∧
    (generateOpenaiBatch 1 (fun _ => [(5 : ℚ)]) (fun _ => false) 1 ["x"]).length = 1 := by
  have h := c4_blank_single_zero_failed_batch_zeros 1 (fun _ => [(5 : ℚ)]) (fun _ => false) 1
    ["x"] "" (by decide) (by decide)
  exact ⟨h.1, by simpa using h.2.1⟩

/-- Counterexample to C4 as stated: a blank entry of a batch is replaced by a
single space and embedded by the backend, so with a backend whose embedding of
a space is not the zero vector the batch output for a blank entry is not the
zero vector. -/
theorem c4_counterexample :
    localGenerateEmbeddingsBatch (fun _ => [(1 : ℚ)]) [""] = [[(1 : ℚ)]] ∧
    [[(1 : ℚ)]] ≠ [zeroVec 1] := by
  refine ⟨rfl, ?_⟩
  simp [zeroVec]

/-! ## Lemmas about the sliding-window chunker -/

theorem mapdrop_flatten_tokenWindowsAux {α : Type} (size overlap : ℕ)
    (hov : overlap < size) :
    ∀ (fuel : ℕ) (ts : List α), ts.length ≤ fuel →
      ((tokenWindowsAux size overlap fuel ts).map fun w => w.drop overlap).flatten =
        ts.drop overlap := by
  intro fuel
  induction fuel with
  | zero =>
    intro ts h
    have : ts = [] := List.eq_nil_of_length_eq_zero (Nat.le_zero.mp h)
    subst this
    simp [tokenWindowsAux]
  | succ n ih =>
    intro ts h
    cases ts with
    | nil => simp [tokenWindowsAux]
    | cons a t =>
      by_cases hle : (a :: t).length ≤ size
      · simp only [tokenWindowsAux, if_pos hle, List.map_cons, List.map_nil,
          List.flatten_cons, List.flatten_nil, List.append_nil]
        rw [List.take_of_length_le hle]
      · simp only [tokenWindowsAux, if_neg hle, List.map_cons, List.flatten_cons]
        rw [ih]
        · rw [List.drop_take]
          have h3 : ((a :: t).drop (size - overlap)).drop overlap =
              ((a :: t).drop overlap).drop (size - overlap) := by
            rw [List.drop_drop, List.drop_drop]
            congr 1
            omega
          rw [h3, List.take_append_drop]
        · have hlen : ((a :: t).drop (size - overlap)).length =
              (a :: t).length - (size - overlap) := List.length_drop ..
          simp only [List.length_cons] at h hle hlen
          omega

theorem reconstruct_tokenWindows {α : Type} (size overlap : ℕ) (hov : overlap < size)
    (ts : List α) :
    reconstructTokens overlap (tokenWindows size overlap ts) = ts := by
  cases ts with
  | nil => simp [tokenWindows, tokenWindowsAux, reconstructTokens]
  | cons a t =>
    have hunf : tokenWindows size overlap (a :: t) =
        (a :: t).take size ::
          (if (a :: t).length ≤ size then []
           else tokenWindowsAux size overlap t.length ((a :: t).drop (size - overlap))) := rfl
    rw [hunf]
    by_cases hle : (a :: t).length ≤ size
    · rw [if_pos hle]
      simp only [reconstructTokens, List.map_nil, List.flatten_nil, List.append_nil]
      exact List.take_of_length_le hle
    · rw [if_neg hle]
      simp only [reconstructTokens]
      rw [mapdrop_flatten_tokenWindowsAux size overlap hov]
      · have h5 : ((a :: t).drop (size - overlap)).drop overlap = (a :: t).drop size := by
          rw [List.drop_drop]
          congr 1
          omega
        rw [h5]
        exact List.take_append_drop size (a :: t)
      · have hlen : ((a :: t).drop (size - overlap)).length =
            (a :: t).length - (size - overlap) := List.length_drop ..
        simp only [List.length_cons] at hlen
        omega

/-- C5: for overlap strictly below the window size, the token windows of
chunk_text, concatenated with the overlap of each consecutive pair removed,
reconstruct the tokenization of the cleaned input exactly. -/
theorem c5_chunk_coverage (tk : Tokenizer) (st : DocumentProcessorState) (text : String)
    (hov : st.chunk_overlap < st.chunk_size) (hblank : isBlank text = false) :
    reconstructTokens st.chunk_overlap (chunkWindows tk st text) =
      tk.encode (cleanText text) := by
  have h := reconstruct_tokenWindows st.chunk_size st.chunk_overlap hov
    (tk.encode (cleanText text))
  simpa [chunkWindows, hblank] using h

/-- Witness for C5 at a concrete input: window 3, overlap 1, six characters. -/
theorem c5_chunk_coverage_witness :
    reconstructTokens 1 (chunkWindows charTokenizer ⟨3, 1⟩ "abcdef") =
      charTokenizer.encode (cleanText "abcdef") :=
  c5_chunk_coverage charTokenizer ⟨3, 1⟩ "abcdef" (by decide) (by decide)

/-- C6: DocumentProcessor.__init__ accepts every chunk_size/chunk_overlap pair
without raising (the source performs no validation), and with overlap equal to
the window size the sliding-window loop of chunk_text makes no progress: on a
three-token input it re-emits the same first window for every amount of fuel,
i.e. the Python loop never terminates instead of failing fast at construction. -/
theorem c6_init_never_raises_and_loop_stalls :
    documentProcessorInit 512 512 = Except.ok ⟨512, 512⟩ ∧
    ∀ fuel : ℕ, tokenWindowsAux 2 2 fuel [0, 1, 2] = List.replicate fuel [0, 1] := by
  refine ⟨rfl, ?_⟩
  intro fuel
  induction fuel with
  | zero => rfl
  | succ n ih =>
    rw [List.replicate_succ]
    rw [show tokenWindowsAux 2 2 (n + 1) [0, 1, 2] =
        [0, 1] :: (if ([0, 1, 2] : List ℕ).length ≤ 2 then []
          else tokenWindowsAux 2 2 n [0, 1, 2]) from rfl]
    rw [if_neg (by decide)]
    rw [ih]

/-- C1 (amended): position_size_usd is available_cash times the risk-tier
percent (0.02 low / 0.03 medium / 0.05 high) rounded to two decimal places
with banker's rounding, and position_size_percent is exactly the tier percent
times 100. -/
theorem c1_position_size_tiered_rounded (answer symbol : String)
    (account_balance available_cash : ℚ) (sources : List String) :
    (parseRecommendation answer symbol account_balance available_cash sources).position_size_usd =
      round2 (available_cash * riskPercentOf (riskOf (lowerStr answer))) ∧
    (parseRecommendation answer symbol account_balance available_cash sources).position_size_percent =
      riskPercentOf (riskOf (lowerStr answer)) * 100 := by
  constructor
  · rfl
  · have hcases : riskOf (lowerStr answer) = "high" ∨ riskOf (lowerStr answer) = "low" ∨
        riskOf (lowerStr answer) = "medium" := by
      rw [riskOf]
      split_ifs <;> simp
    show round1 (riskPercentOf (riskOf (lowerStr answer)) * 100) =
      riskPercentOf (riskOf (lowerStr answer)) * 100
    have hhigh : riskPercentOf "high" = 5 / 100 := rfl
    have hlow : riskPercentOf "low" = 2 / 100 := rfl
    have hmed : riskPercentOf "medium" = 3 / 100 := rfl
    rcases hcases with h | h | h <;> rw [h]
    · rw [hhigh]
      have h5 : ((5 : ℚ) / 100) * 100 = 5 := by norm_num
      rw [h5, round1]
      have h10 : ((5 : ℚ)) * 10 = 50 := by norm_num
      rw [h10, roundHalfEvenZ]
      norm_num
    · rw [hlow]
      have h5 : ((2 : ℚ) / 100) * 100 = 2 := by norm_num
      rw [h5, round1]
      have h10 : ((2 : ℚ)) * 10 = 20 := by norm_num
      rw [h10, roundHalfEvenZ]
      norm_num
    · rw [hmed]
      have h5 : ((3 : ℚ) / 100) * 100 = 3 := by norm_num
      rw [h5, round1]
      have h10 : ((3 : ℚ)) * 10 = 30 := by norm_num
      rw [h10, roundHalfEvenZ]
      norm_num

/-- Counterexample to C1 as stated: with a low-risk answer and the positive
available cash 0.1, the returned position size is round(0.1 * 0.02, 2) = 0,
which differs from 0.1 * 0.02 = 0.002: the rounding to two decimal places
makes exact equality fail. -/
theorem c1_counterexample :
    (parseRecommendation "a safe trade" "BTCUSDT" 1 (1/10) []).risk_assessment = "low" ∧
    (0 : ℚ) < 1/10 ∧
    (parseRecommendation "a safe trade" "BTCUSDT" 1 (1/10) []).position_size_usd ≠
      (1/10) * (2/100) := by
  refine ⟨by decide, by norm_num, ?_⟩
  have h1 : (parseRecommendation "a safe trade" "BTCUSDT" 1 (1/10) []).position_size_usd =
      round2 ((1/10) * riskPercentOf (riskOf (lowerStr "a safe trade"))) := rfl
  have h2 : riskOf (lowerStr "a safe trade") = "low" := by decide
  have h3 : riskPercentOf "low" = 2 / 100 := rfl
  rw [h1, h2, h3]
  have h4 : ((1 : ℚ)/10) * (2/100) = 1/500 := by norm_num
  rw [h4, round2]
  have h5 : ((1 : ℚ)/500) * 100 = 1/5 := by norm_num
  rw [h5, roundHalfEvenZ]
  norm_num

/-- C9 is violated by the code: _extract_confidence applies no clamping, so
the answer text `confidence: 1.5` yields the confidence 1.5, outside the
documented interval from 0 to 1. -/
theorem c9_confidence_exceeds_one :
    extractConfidence "confidence: 1.5" = 3/2 ∧
    ¬ extractConfidence "confidence: 1.5" ≤ 1 := by
  have h1 : searchPercentConf (lowerStr "confidence: 1.5").data = none := by decide
  have h2 : searchConfDecimal (lowerStr "confidence: 1.5").data = some (1, 5, 1) := by decide
  have he : extractConfidence "confidence: 1.5" = qOfDecimal (1, 5, 1) := by
    rw [extractConfidence]
    simp only [h1, h2]
  rw [he]
  constructor
  · rw [qOfDecimal]
    norm_num
  · rw [qOfDecimal]
    norm_num

/-! ## Graceful degradation of retrieval and query -/

theorem flatMap_nil_fun {α β : Type} (l : List α) :
    (l.flatMap fun _ => ([] : List β)) = [] := by
  induction l with
  | nil => rfl
  | cons a t ih => simp [ih]

theorem rerankResults_nil (method : String) : rerankResults [] method = [] := by
  rw [rerankResults]
  split_ifs <;> simp [sortByLe]

/-- C7: when the vector store raises, semantic_search (and hence
retrieve_context) returns the empty sequence instead of propagating, and query
still returns a fully populated response record whose sources are empty and
whose context_used is 0. -/
theorem c7_store_failure_graceful (dist : List ℚ → List ℚ → ℚ)
    (embedOne : String → List ℚ) (d : ℕ) (llm : String → String → Except String String)
    (fmt : ℚ → String) (question : String) (symbol : Option String)
    (docTypes : Option (List String)) (top_k responseTime : ℕ) (timestamp : String)
    (e : String) :
    retrieveContext dist embedOne d (Except.error e) question top_k
      ⟨symbol, none, none⟩ = [] ∧
    (queryFn dist embedOne d llm fmt (Except.error e) question symbol docTypes top_k
      responseTime timestamp).context_used = 0 ∧
    (queryFn dist embedOne d llm fmt (Except.error e) question symbol docTypes top_k
      responseTime timestamp).sources = [] := by
  have hret : ∀ (flt : SearchFilters) (k : ℕ),
      retrieveContext dist embedOne d (Except.error e) question k flt = [] := fun _ _ => rfl
  refine ⟨hret _ _, ?_, ?_⟩ <;>
  · cases docTypes with
    | none => simp [queryFn, hret, rerankResults_nil]
    | some l => simp [queryFn, hret, flatMap_nil_fun, rerankResults_nil]

/-! ## Rate limiter behaviour -/

theorem iterate_recordRequest (now : CacheTime) (cache : RLKey → ℕ) :
    ∀ (n : ℕ) (k : RLKey),
      ((fun c => recordRequest c now)^[n] cache) k =
        cache k + (if k = minuteKeyOf now ∨ k = dayKeyOf now then n else 0) := by
  intro n
  induction n with
  | zero => intro k; simp
  | succ m ih =>
    intro k
    rw [Function.iterate_succ_apply']
    simp only [recordRequest]
    by_cases h1 : k = minuteKeyOf now
    · simp [h1, ih]
      omega
    · by_cases h2 : k = dayKeyOf now
      · simp [h1, h2, ih]
        omega
      · simp [h1, h2, ih]

/-- C8: with the current minute bucket starting at zero, after exactly
RATE_LIMIT_RPM = 15 recorded requests at the same time, the next
can_make_request returns (False, minute-exceeded reason); that reason differs
from the day-exceeded reason; at a time in a different minute bucket whose
counters leave the day cap unreached, a request is allowed again; and a
blocked GoogleAIClient.generate raises the rate-limit reason without ever
invoking the network API. -/
theorem c8_rate_limiter_boundary (cache : RLKey → ℕ) (now nextMin : CacheTime)
    (hmin0 : cache (minuteKeyOf now) = 0)
    (hdiff : minuteKeyOf nextMin ≠ minuteKeyOf now)
    (hmin0' : cache (minuteKeyOf nextMin) = 0)
    (hday : cache (dayKeyOf nextMin) + 15 < 1500) :
    canMakeRequest ((fun c => recordRequest c now)^[15] cache) now =
      (false, some "Rate limit exceeded: 15 requests per minute") ∧
    "Rate limit exceeded: 15 requests per minute" ≠
      "Daily limit exceeded: 1500 requests per day" ∧
    canMakeRequest ((fun c => recordRequest c now)^[15] cache) nextMin = (true, none) ∧
    ∀ api : Except String String,
      (googleGenerate ((fun c => recordRequest c now)^[15] cache) now api).1 =
        Except.error "Rate limit exceeded: 15 requests per minute" ∧
      (googleGenerate ((fun c => recordRequest c now)^[15] cache) now api).2.1 = false := by
  have hm : ((fun c => recordRequest c now)^[15] cache) (minuteKeyOf now) = 15 := by
    rw [iterate_recordRequest]
    simp [hmin0]
  have hchk : canMakeRequest ((fun c => recordRequest c now)^[15] cache) now =
      (false, some "Rate limit exceeded: 15 requests per minute") := by
    rw [canMakeRequest, hm]
    rw [if_pos (by norm_num [rateLimitRPM])]
  have hm' : ((fun c => recordRequest c now)^[15] cache) (minuteKeyOf nextMin) = 0 := by
    rw [iterate_recordRequest]
    rw [if_neg ?_, hmin0']
    rintro (h | h)
    · exact hdiff h
    · rw [minuteKeyOf, dayKeyOf] at h
      exact RLKey.noConfusion h
  have hd : ((fun c => recordRequest c now)^[15] cache) (dayKeyOf nextMin) < 1500 := by
    rw [iterate_recordRequest]
    split_ifs <;> omega
  refine ⟨hchk, by decide, ?_, ?_⟩
  · rw [canMakeRequest, hm']
    rw [if_neg (by norm_num [rateLimitRPM])]
    rw [if_neg ?_]
    intro hcon
    rw [rateLimitRPD] at hcon
    omega
  · intro api
    rw [googleGenerate.eq_def]
    simp only [hchk]
    constructor <;> rfl

/-- Witness for C8 at a concrete input: all counters start at zero, the second
time differs from the first only in the minute field. -/
theorem c8_rate_limiter_boundary_witness :
    canMakeRequest ((fun c => recordRequest c ⟨2025, 1, 1, 10, 0⟩)^[15] fun _ => 0)
        ⟨2025, 1, 1, 10, 0⟩ =
      (false, some "Rate limit exceeded: 15 requests per minute") ∧
    canMakeRequest ((fun c => recordRequest c ⟨2025, 1, 1, 10, 0⟩)^[15] fun _ => 0)
        ⟨2025, 1, 1, 10, 1⟩ = (true, none) := by
  have h := c8_rate_limiter_boundary (fun _ => 0) ⟨2025, 1, 1, 10, 0⟩ ⟨2025, 1, 1, 10, 1⟩
    rfl (by decide) rfl (by decide)
  exact ⟨h.1, h.2.2.1⟩

/-! ## Ingest atomicity and session lifecycle -/

theorem foldl_addRow_fields {α : Type} (l : List α) (s : DBSession) :
    (l.foldl (fun acc _ => addRow acc) s).committed = s.committed ∧
    (l.foldl (fun acc _ => addRow acc) s).closed = s.closed := by
  induction l generalizing s with
  | nil => exact ⟨rfl, rfl⟩
  | cons a t ih => simpa [addRow] using ih (addRow s)

theorem foldl_store_closed (l : List ℕ) (storeOk : ℕ → Bool) (s : DBSession) :
    (l.foldl (fun acc i => (storeChunkEmbedding (storeOk i) acc).2) s).closed = s.closed := by
  induction l generalizing s with
  | nil => rfl
  | cons a t ih =>
    rw [List.foldl_cons, ih]
    rw [storeChunkEmbedding]
    split_ifs <;> rfl

theorem foldl_store_committed_ge (l : List ℕ) (storeOk : ℕ → Bool) (s : DBSession) :
    s.committed ≤ (l.foldl (fun acc i => (storeChunkEmbedding (storeOk i) acc).2) s).committed := by
  induction l generalizing s with
  | nil => exact le_rfl
  | cons a t ih =>
    rw [List.foldl_cons]
    refine le_trans ?_ (ih _)
    rw [storeChunkEmbedding]
    split_ifs <;> simp [commitS, rollbackS]

/-- C10: if document creation/flush, chunking, or batch embedding generation
raises inside ingest_document, the exception propagates unchanged, the session
is rolled back with no new row committed and nothing left pending; an
internally opened session ends closed on every exit path, and a caller-supplied
session is never closed by the operation. -/
theorem c10_ingest_rollback_and_session_lifecycle
    (docFlushE : Except String Unit) (chunksE : Except String (List Chunk))
    (embedsE : Except String (List (List ℚ))) (storeOk : ℕ → Bool) (docId : ℕ)
    (sessionIn : Option DBSession) (e : String) (cs : List Chunk) :
    (docFlushE = .error e →
      (ingestDocument docFlushE chunksE embedsE storeOk docId sessionIn).1 = .error e ∧
      (ingestDocument docFlushE chunksE embedsE storeOk docId sessionIn).2.committed =
        (sessionIn.getD freshSession).committed ∧
      (ingestDocument docFlushE chunksE embedsE storeOk docId sessionIn).2.pending = 0) ∧
    (docFlushE = .ok () → chunksE = .error e →
      (ingestDocument docFlushE chunksE embedsE storeOk docId sessionIn).1 = .error e ∧
      (ingestDocument docFlushE chunksE embedsE storeOk docId sessionIn).2.committed =
        (sessionIn.getD freshSession).committed ∧
      (ingestDocument docFlushE chunksE embedsE storeOk docId sessionIn).2.pending = 0) ∧
    (docFlushE = .ok () → chunksE = .ok cs → embedsE = .error e →
      (ingestDocument docFlushE chunksE embedsE storeOk docId sessionIn).1 = .error e ∧
      (ingestDocument docFlushE chunksE embedsE storeOk docId sessionIn).2.committed =
        (sessionIn.getD freshSession).committed ∧
      (ingestDocument docFlushE chunksE embedsE storeOk docId sessionIn).2.pending = 0) ∧
    (sessionIn = none →
      (ingestDocument docFlushE chunksE embedsE storeOk docId sessionIn).2.closed = true) ∧
    (∀ s0 : DBSession, sessionIn = some s0 →
      (ingestDocument docFlushE chunksE embedsE storeOk docId sessionIn).2.closed =
        s0.closed) := by
  refine ⟨?_, ?_, ?_, ?_, ?_⟩
  · intro h
    subst h
    cases sessionIn with
    | none => simp [ingestDocument, closeS, rollbackS, addRow, freshSession]
    | some s0 => simp [ingestDocument, closeS, rollbackS, addRow, freshSession]
  · intro h1 h2
    subst h1
    subst h2
    cases sessionIn with
    | none => simp [ingestDocument, closeS, rollbackS, addRow, freshSession]
    | some s0 => simp [ingestDocument, closeS, rollbackS, addRow, freshSession]
  · intro h1 h2 h3
    subst h1
    subst h2
    subst h3
    cases sessionIn with
    | none =>
      have hf := foldl_addRow_fields cs (addRow freshSession)
      refine ⟨rfl, ?_, rfl⟩
      show (closeS (rollbackS (cs.foldl (fun acc _ => addRow acc)
        (addRow freshSession)))).committed = freshSession.committed
      simp only [closeS, rollbackS]
      rw [hf.1]
      rfl
    | some s0 =>
      have hf := foldl_addRow_fields cs (addRow s0)
      refine ⟨rfl, ?_, rfl⟩
      show (rollbackS (cs.foldl (fun acc _ => addRow acc) (addRow s0))).committed =
        s0.committed
      simp only [rollbackS]
      rw [hf.1]
      rfl
  · intro h
    subst h
    cases docFlushE with
    | error e1 => simp [ingestDocument, closeS]
    | ok u =>
      cases u
      cases chunksE with
      | error e1 => simp [ingestDocument, closeS]
      | ok cs1 =>
        cases embedsE with
        | error e1 => simp [ingestDocument, closeS]
        | ok es => simp [ingestDocument, closeS]
  · intro s0 h
    subst h
    cases docFlushE with
    | error e1 => simp [ingestDocument, closeS, rollbackS, addRow]
    | ok u =>
      cases u
      cases chunksE with
      | error e1 => simp [ingestDocument, closeS, rollbackS, addRow]
      | ok cs1 =>
        cases embedsE with
        | error e1 =>
          have hf := foldl_addRow_fields cs1 (addRow s0)
          simp [ingestDocument, closeS, rollbackS, addRow, hf.2]
          simp [addRow] at hf
          exact hf.2
        | ok es =>
          have hf := foldl_addRow_fields cs1 (addRow s0)
          show (commitS ((List.range (min cs1.length es.length)).foldl
              (fun acc i => (storeChunkEmbedding (storeOk i) acc).2)
              (cs1.foldl (fun acc _ => addRow acc) (addRow s0)))).closed = s0.closed
          simp only [commitS]
          rw [foldl_store_closed, hf.2]
          rfl

/-- Witness for C10 at concrete inputs: a failing document flush with an
internally opened session (rolled back, nothing committed, closed), and a
successful run on a caller-supplied session (never closed). -/
theorem c10_ingest_rollback_and_session_lifecycle_witness :
    (ingestDocument (.error "boom") (.ok []) (.ok []) (fun _ => true) 7 none).1 =
      .error "boom" ∧
    (ingestDocument (.error "boom") (.ok []) (.ok []) (fun _ => true) 7 none).2.committed = 0 ∧
    (ingestDocument (.error "boom") (.ok []) (.ok []) (fun _ => true) 7 none).2.closed = true ∧
    (ingestDocument (.ok ()) (.ok []) (.ok []) (fun _ => true) 7
      (some freshSession)).2.closed = false := by
  have h1 := c10_ingest_rollback_and_session_lifecycle (.error "boom") (.ok []) (.ok [])
    (fun _ => true) 7 none "boom" []
  have h2 := c10_ingest_rollback_and_session_lifecycle (.ok ()) (.ok []) (.ok [])
    (fun _ => true) 7 (some freshSession) "x" []
  refine ⟨(h1.1 rfl).1, ?_, h1.2.2.2.1 rfl, ?_⟩
  · have h := (h1.1 rfl).2.1
    simpa [freshSession] using h
  · have h := h2.2.2.2.2 freshSession rfl
    simpa [freshSession] using h
